import Mathlib

/-!
Shallow embedding of the radix repository: the `redis` package's
`MultiCommand` batching/transaction engine (src/unnamed/part_000) and the
`radix` package's connection layer (src/radix.go).

External collaborators that are not part of the repository source
(the `Reply` value shape, the `connection.multiCommand` network round trip,
and the behaviour of a closed network stream) are modelled from the spec,
with their doc comments marking them as such. Everything else is a direct
translation of the Go source.
-/

set_option autoImplicit false

namespace redis

/-- Kind tag of a reply, per the spec design note: a reply is a tagged
variant, either an error, a sequence of nested replies (multi), or a
scalar. -/
inductive ReplyKind where
  | scalar
  | error
  | multi
  deriving DecidableEq, Repr

/-- Modelled from the spec: `Reply` is not under src/ (only its use in
`MultiCommand.process` is). Per the spec it "is either a single
scalar/error outcome or an ordered sequence of nested Replies"; per the
source it exposes a field `Error` (nil when no error) and a field `elems`
(the nested replies). Arbitrary scalar payloads are irrelevant to the
claims and are carried only by the kind tag. -/
inductive Reply where
  | mk (kind : ReplyKind) (Error : Option String) (elems : List Reply)

/-- Kind tag of a reply. -/
def Reply.kind : Reply → ReplyKind
  | .mk k _ _ => k

/-- The `Error` field of a reply (`nil` in Go becomes `none`). -/
def Reply.Error : Reply → Option String
  | .mk _ e _ => e

/-- The `elems` field of a reply: its nested replies. -/
def Reply.elems : Reply → List Reply
  | .mk _ _ es => es

/-- Go field assignment `r.elems = es`: other fields are unchanged. -/
def Reply.setElems : Reply → List Reply → Reply
  | .mk k e _, es => .mk k e es

/-- Go field assignment `r.Error = err`: other fields are unchanged. -/
def Reply.setError : Reply → Option String → Reply
  | .mk k _ es, e => .mk k e es

/-- Modelled from the spec: `newError` is not under src/; it builds an
error payload from a message string. -/
def newError (msg : String) : Option String := some msg

/-- Modelled from the spec: `Reply.At` is not under src/. It indexes the
nested-reply sequence; an out-of-range index is a runtime fault, modelled
as `none`. -/
def Reply.At (r : Reply) (i : Int) : Option Reply :=
  if 0 ≤ i then r.elems[i.toNat]? else none

/-- A queued command: a name and its (opaque) argument list, as in
`type command struct` of the source package. Arguments are opaque values;
they are modelled as strings. -/
structure command where
  name : String
  args : List String
  deriving DecidableEq, Repr

/-- `MultiCommand` holds data for a Redis multi command: the transaction
flag and the ordered queue of commands. The `c *connection` field is the
borrowed connection; its single operation used here
(`connection.multiCommand`) is passed to `process`/`Flush` as an explicit
function argument. -/
structure MultiCommand where
  transaction : Bool
  cmds : List command

/-- `newMultiCommand` constructs a batch with an empty queue. -/
def newMultiCommand (transaction : Bool) : MultiCommand :=
  { transaction := transaction, cmds := [] }

/-- `mc.command(cmd, args...)`: appends a command to the queue. -/
def MultiCommand.command (mc : MultiCommand) (cmd : String)
    (args : List String) : MultiCommand :=
  { mc with cmds := mc.cmds ++ [{ name := cmd, args := args }] }

/-- `Command` queues a command for later execution (public wrapper of
`command`). -/
def MultiCommand.Command (mc : MultiCommand) (cmd : String)
    (args : List String) : MultiCommand :=
  mc.command cmd args

/-- Modelled from the spec: `MultiCommand.Multi` is not under src/; it
enqueues the begin-transaction marker command. -/
def MultiCommand.Multi (mc : MultiCommand) : MultiCommand :=
  mc.command "MULTI" []

/-- Modelled from the spec: `MultiCommand.Exec` is not under src/; it
enqueues the commit-transaction marker command. -/
def MultiCommand.Exec (mc : MultiCommand) : MultiCommand :=
  mc.command "EXEC" []

/-- The effect of the `userCommands func(*MultiCommand)` callback: it
enqueues application commands via `Command`, here given as the list of
commands it queues, appended in order. -/
def MultiCommand.queueAll (mc : MultiCommand) (user : List redis.command) :
    MultiCommand :=
  user.foldl (fun m c => m.Command c.name c.args) mc

/-- `process` calls the given multi command function, flushes the
commands, and returns the returned Reply. The network round trip
`mc.c.multiCommand(mc.cmds)` (not under src/) is the `server` argument:
the aggregate reply the connection returns for a queued command list.
The second component is the batch state after the call (Go mutates `mc`
in place). A `none` first component models the runtime fault of an
out-of-range `At` access. -/
def MultiCommand.process (mc : MultiCommand) (server : List redis.command → Reply)
    (userCommands : List redis.command) : Option Reply × MultiCommand :=
  let mc1 := if mc.transaction then mc.Multi else mc
  let mc2 := mc1.queueAll userCommands
  if !mc.transaction then
    (some (server mc2.cmds), mc2)
  else
    let mc3 := mc2.Exec
    let r := server mc3.cmds
    let result : Option Reply :=
      match r.At ((r.elems.length : Int) - 1) with
      | none => none
      | some execReply =>
        if execReply.Error = none then
          some (r.setElems execReply.elems)
        else
          if execReply.Error ≠ none then
            some (r.setError execReply.Error)
          else
            some (r.setError (newError "unknown transaction error"))
    (result, mc3)

/-- The begin-transaction marker command. -/
def multiCmd : redis.command := { name := "MULTI", args := [] }

/-- The commit-transaction marker command. -/
def execCmd : redis.command := { name := "EXEC", args := [] }

/-- The commit-step unwrapping that the transactional branch of `process`
performs on the aggregate reply `r` (a characterization used by the
unfolding lemma below, mirroring the source branch verbatim). -/
def txExecResult (r : Reply) : Option Reply :=
  match r.At ((r.elems.length : Int) - 1) with
  | none => none
  | some execReply =>
    if execReply.Error = none then
      some (r.setElems execReply.elems)
    else
      if execReply.Error ≠ none then
        some (r.setError execReply.Error)
      else
        some (r.setError (newError "unknown transaction error"))

/-- `Flush` sends queued commands to the server for execution and returns
the returned Reply; the queue is then cleared (`mc.cmds = nil`). -/
def MultiCommand.Flush (mc : MultiCommand) (server : List redis.command → Reply) :
    Reply × MultiCommand :=
  (server mc.cmds, { mc with cmds := [] })

end redis

namespace radix

/-- A `net.Conn` value as far as identity is concerned: either a raw
dialed socket (identified by an opaque id) or the `timeoutConn`
deadline-enforcing wrapper around another stream, as built by
`DialTimeout`. -/
inductive NetStream where
  | raw (id : Nat)
  | timeoutWrap (conn : NetStream) (timeout : Int)
  deriving DecidableEq, Repr

/-- Number of wrapper layers around the raw socket. -/
def NetStream.depth : NetStream → Nat
  | .raw _ => 0
  | .timeoutWrap c _ => c.depth + 1

/-- A Go error value, tagged by whether it implements `net.Error`
(transport-level) or not (protocol/encoding-logic error). -/
inductive GoError where
  | net (msg : String)
  | other (msg : String)
  deriving DecidableEq, Repr

/-- The `_, ok := err.(net.Error)` type assertion. -/
def GoError.isNet : GoError → Bool
  | .net _ => true
  | .other _ => false

/-- `connWrap` wraps a `net.Conn` (kept for `NetConn`) together with the
connection's liveness: `closed` records whether `Close` has been called
on the underlying stream. The `bufio.ReadWriter` is not represented; the
outcomes of the marshal, flush and unmarshal steps it mediates are passed
to `Encode`/`Decode` as explicit arguments. -/
structure connWrap where
  Conn : NetStream
  closed : Bool
  deriving DecidableEq, Repr

/-- `NewConn` wraps an existing `net.Conn` into a ready (open) `Conn`. -/
def NewConn (conn : NetStream) : connWrap :=
  { Conn := conn, closed := false }

/-- `Close` closes the underlying stream. -/
def connWrap.Close (cw : connWrap) : connWrap :=
  { cw with closed := true }

/-- `Do` delegates directly to the action: `a.Run(cw)`. An action is its
`Run` function, taking the connection and returning an error (or `none`)
and the connection state it leaves behind. -/
def connWrap.Do (cw : connWrap)
    (run : connWrap → Option GoError × connWrap) : Option GoError × connWrap :=
  run cw

/-- Modelled from the spec: transport operations on a closed stream fail
with a transport-level error (per the `Client` doc in the source, once
`Close` is called all future calls that reach the stream error out).
`opErr` is the outcome the step would have on an open connection. -/
def streamOutcome (cw : connWrap) (opErr : Option GoError) : Option GoError :=
  if cw.closed then some (GoError.net "use of closed network connection")
  else opErr

/-- `Encode(m)`: run `m.MarshalRESP` into the write buffer, then (on
success) flush the buffer to the stream. `marshalErr` is the outcome of
the marshal step (it writes into the buffer, not the stream, so it is not
gated on `closed`); `flushErr` is the outcome `brw.Flush()` would have on
an open stream. The deferred closure closes the connection when the final
`err` is a `net.Error` and the error is returned unchanged. -/
def connWrap.Encode (cw : connWrap) (marshalErr flushErr : Option GoError) :
    Option GoError × connWrap :=
  let err : Option GoError :=
    match marshalErr with
    | some e => some e
    | none => streamOutcome cw flushErr
  match err with
  | some e => (some e, if e.isNet then cw.Close else cw)
  | none => (none, cw)

/-- `Decode(u)`: run `u.UnmarshalRESP` from the buffered reader.
`unmarshalErr` is the outcome the unmarshal step would have on an open
stream; if the resulting error is a `net.Error` the connection is closed,
and the error is returned unchanged. -/
def connWrap.Decode (cw : connWrap) (unmarshalErr : Option GoError) :
    Option GoError × connWrap :=
  let err := streamOutcome cw unmarshalErr
  match err with
  | some e => (some e, if e.isNet then cw.Close else cw)
  | none => (none, cw)

/-- `NetConn` returns the underlying network connection, as-is. -/
def connWrap.NetConn (cw : connWrap) : NetStream :=
  cw.Conn

/-- `Dial`: open a stream (`c`, the successfully dialed socket) and wrap
it with `NewConn`. -/
def Dial (c : NetStream) : connWrap :=
  NewConn c

/-- `timeoutConn` wraps a raw stream plus a fixed timeout; `deadline`
is the absolute deadline currently set on the underlying stream
(`none` when no deadline has been set). -/
structure timeoutConn where
  timeout : Int
  deadline : Option Int
  deriving DecidableEq, Repr

/-- `setDeadline`: when the configured timeout is positive, set an
absolute deadline of now + timeout on the underlying stream; otherwise do
nothing. -/
def timeoutConn.setDeadline (tc : timeoutConn) (now : Int) : timeoutConn :=
  if tc.timeout > 0 then { tc with deadline := some (now + tc.timeout) }
  else tc

/-- `Read`: refresh the deadline, then read from the underlying stream
(the read itself does not change the deadline state). -/
def timeoutConn.Read (tc : timeoutConn) (now : Int) : timeoutConn :=
  tc.setDeadline now

/-- `Write`: refresh the deadline, then write to the underlying stream
(the write itself does not change the deadline state). -/
def timeoutConn.Write (tc : timeoutConn) (now : Int) : timeoutConn :=
  tc.setDeadline now

/-- `DialTimeout`: open a stream (`c`, the successfully dialed socket),
wrap it in the deadline-enforcing `timeoutConn` wrapper with the given
timeout, and pass that wrapper to `NewConn`. -/
def DialTimeout (c : NetStream) (timeout : Int) : connWrap :=
  NewConn (NetStream.timeoutWrap c timeout)

end radix

namespace redis

theorem MultiCommand.queueAll_cmds (mc : MultiCommand)
    (user : List redis.command) :
    (mc.queueAll user).cmds = mc.cmds ++ user := by
  induction user generalizing mc with
  | nil => simp [MultiCommand.queueAll]
  | cons c cs ih =>
    have hstep : mc.queueAll (c :: cs) =
        ({ mc with cmds := mc.cmds ++ [c] } : MultiCommand).queueAll cs := rfl
    rw [hstep, ih]
    simp

theorem MultiCommand.queueAll_transaction (mc : MultiCommand)
    (user : List redis.command) :
    (mc.queueAll user).transaction = mc.transaction := by
  induction user generalizing mc with
  | nil => rfl
  | cons c cs ih =>
    have hstep : mc.queueAll (c :: cs) =
        ({ mc with cmds := mc.cmds ++ [c] } : MultiCommand).queueAll cs := rfl
    rw [hstep, ih]

/-- The full command list a transactional `process` run sends: the
already-queued commands, the begin marker, the user commands, the commit
marker, in that order. -/
theorem MultiCommand.tx_cmds (mc : MultiCommand) (user : List redis.command) :
    ((mc.Multi.queueAll user).Exec).cmds =
      mc.cmds ++ [multiCmd] ++ user ++ [execCmd] := by
  have h1 : (mc.Multi.queueAll user).cmds = (mc.cmds ++ [multiCmd]) ++ user :=
    MultiCommand.queueAll_cmds _ _
  show (mc.Multi.queueAll user).cmds ++ [execCmd] = _
  rw [h1]

theorem Reply.At_last (r : Reply) (h : r.elems ≠ []) :
    r.At ((r.elems.length : Int) - 1) = some (r.elems.getLast h) := by
  have hlen : 0 < r.elems.length := List.length_pos.mpr h
  have h0 : (0 : Int) ≤ (r.elems.length : Int) - 1 := by omega
  have ht : ((r.elems.length : Int) - 1).toNat = r.elems.length - 1 := by omega
  rw [Reply.At, if_pos h0, ht, ← List.getLast?_eq_getElem?,
    List.getLast?_eq_getLast r.elems h]

theorem Reply.At_of_empty (r : Reply) (h : r.elems = []) :
    r.At ((r.elems.length : Int) - 1) = none := by
  rw [Reply.At, h]
  simp

theorem MultiCommand.process_tx_eq (mc : MultiCommand)
    (server : List redis.command → Reply) (user : List redis.command)
    (ht : mc.transaction = true) :
    mc.process server user =
      (txExecResult (server (mc.cmds ++ [multiCmd] ++ user ++ [execCmd])),
        (mc.Multi.queueAll user).Exec) := by
  obtain ⟨t, cs⟩ := mc
  replace ht : t = true := ht
  subst ht
  rw [← MultiCommand.tx_cmds]
  rfl

theorem MultiCommand.process_nontx_eq (mc : MultiCommand)
    (server : List redis.command → Reply) (user : List redis.command)
    (ht : mc.transaction = false) :
    mc.process server user =
      (some (server (mc.cmds ++ user)), mc.queueAll user) := by
  obtain ⟨t, cs⟩ := mc
  replace ht : t = false := ht
  subst ht
  rw [← MultiCommand.queueAll_cmds]
  rfl

@[simp] theorem Reply.elems_setElems (r : Reply) (es : List Reply) :
    (r.setElems es).elems = es := by
  cases r; rfl

@[simp] theorem Reply.Error_setElems (r : Reply) (es : List Reply) :
    (r.setElems es).Error = r.Error := by
  cases r; rfl

@[simp] theorem Reply.elems_setError (r : Reply) (e : Option String) :
    (r.setError e).elems = r.elems := by
  cases r; rfl

@[simp] theorem Reply.Error_setError (r : Reply) (e : Option String) :
    (r.setError e).Error = e := by
  cases r; rfl

theorem txExecResult_success (r : Reply) (hne : r.elems ≠ [])
    (he : (r.elems.getLast hne).Error = none) :
    txExecResult r = some (r.setElems (r.elems.getLast hne).elems) := by
  simp only [txExecResult, Reply.At_last r hne, he]
  simp

theorem txExecResult_error (r : Reply) (hne : r.elems ≠ []) (e : String)
    (he : (r.elems.getLast hne).Error = some e) :
    txExecResult r = some (r.setError (some e)) := by
  simp only [txExecResult, Reply.At_last r hne, he]
  simp

theorem txExecResult_empty (r : Reply) (h : r.elems = []) :
    txExecResult r = none := by
  simp only [txExecResult, Reply.At_of_empty r h]

theorem txExecResult_ne_none (r : Reply) (hne : r.elems ≠ []) :
    txExecResult r ≠ none := by
  cases hE : (r.elems.getLast hne).Error with
  | none =>
    rw [txExecResult_success r hne hE]
    exact fun hc => Option.noConfusion hc
  | some e =>
    rw [txExecResult_error r hne e hE]
    exact fun hc => Option.noConfusion hc

/-- Claim C4: for a transactional batch with `user` commands, when the
commit-step reply (the last element of the aggregate reply) is not an
error and carries one nested reply per user command, `process` returns
the aggregate with its element sequence replaced by exactly that nested
sequence: one reply per user command, in submission order, with the
begin/commit marker replies absent from the caller-visible result. -/
theorem process_tx_success (mc : MultiCommand)
    (server : List redis.command → Reply) (user : List redis.command)
    (agg : Reply)
    (ht : mc.transaction = true)
    (hagg : server (mc.cmds ++ [multiCmd] ++ user ++ [execCmd]) = agg)
    (hne : agg.elems ≠ [])
    (he : (agg.elems.getLast hne).Error = none)
    (hn : (agg.elems.getLast hne).elems.length = user.length) :
    (mc.process server user).fst =
      some (agg.setElems (agg.elems.getLast hne).elems) ∧
    (agg.setElems (agg.elems.getLast hne).elems).elems =
      (agg.elems.getLast hne).elems ∧
    (agg.setElems (agg.elems.getLast hne).elems).elems.length = user.length := by
  rw [MultiCommand.process_tx_eq mc server user ht, hagg]
  refine ⟨?_, ?_, ?_⟩
  · exact txExecResult_success agg hne he
  · simp
  · simp [hn]

/-- Witness for C4: two user commands, commit reply carrying two nested
replies; the result is exactly those two replies. -/
theorem process_tx_success_witness :
    ((newMultiCommand true).process
        (fun _ => Reply.mk .multi none
          [Reply.mk .scalar none [], Reply.mk .scalar none [],
            Reply.mk .scalar none [],
            Reply.mk .multi none
              [Reply.mk .scalar (some "OK") [], Reply.mk .scalar (some "v") []]])
        [{ name := "SET", args := ["k", "v"] }, { name := "GET", args := ["k"] }]).fst =
      some ((Reply.mk .multi none
          [Reply.mk .scalar none [], Reply.mk .scalar none [],
            Reply.mk .scalar none [],
            Reply.mk .multi none
              [Reply.mk .scalar (some "OK") [], Reply.mk .scalar (some "v") []]]).setElems
        [Reply.mk .scalar (some "OK") [], Reply.mk .scalar (some "v") []]) :=
  (process_tx_success (newMultiCommand true) _ _ _ rfl rfl
    (fun hc => List.noConfusion hc) (by rfl) (by rfl)).1

/-- Claim C2 (counterexample): a transactional batch whose commit-step
reply is an error: the error does become the top-level error, but the
returned result still carries the raw pipeline replies in its element
sequence, so it is not true that no per-command replies are exposed. -/
theorem process_commit_error_cex :
    ((newMultiCommand true).process
        (fun _ => Reply.mk .multi none
          [Reply.mk .scalar none [], Reply.mk .scalar none [],
            Reply.mk .error (some "EXECABORT Transaction discarded") []])
        [{ name := "SET", args := ["k", "v"] }]).fst =
      some (Reply.mk .multi (some "EXECABORT Transaction discarded")
        [Reply.mk .scalar none [], Reply.mk .scalar none [],
          Reply.mk .error (some "EXECABORT Transaction discarded") []]) ∧
    ([Reply.mk .scalar none [], Reply.mk .scalar none [],
        Reply.mk .error (some "EXECABORT Transaction discarded") []] :
      List Reply) ≠ [] := by
  exact ⟨rfl, fun hc => List.noConfusion hc⟩

/-- Claim C2 (amended): if the commit-step reply is an error, `process`
returns that error as the batch's top-level error; the commit reply's
nested per-command replies are never spliced into the result, but the
result's element sequence is left unchanged (it still holds the raw
pipeline replies rather than being cleared). -/
theorem process_commit_error_amended (mc : MultiCommand)
    (server : List redis.command → Reply) (user : List redis.command)
    (agg : Reply) (e : String)
    (ht : mc.transaction = true)
    (hagg : server (mc.cmds ++ [multiCmd] ++ user ++ [execCmd]) = agg)
    (hne : agg.elems ≠ [])
    (he : (agg.elems.getLast hne).Error = some e) :
    (mc.process server user).fst = some (agg.setError (some e)) ∧
    (agg.setError (some e)).Error = some e ∧
    (agg.setError (some e)).elems = agg.elems := by
  rw [MultiCommand.process_tx_eq mc server user ht, hagg]
  exact ⟨txExecResult_error agg hne e he, by simp, by simp⟩

/-- Witness for the amended C2. -/
theorem process_commit_error_amended_witness :
    ((newMultiCommand true).process
        (fun _ => Reply.mk .multi none
          [Reply.mk .scalar none [],
            Reply.mk .error (some "EXECABORT") []])
        [{ name := "GET", args := ["k"] }]).fst =
      some ((Reply.mk .multi none
          [Reply.mk .scalar none [],
            Reply.mk .error (some "EXECABORT") []]).setError (some "EXECABORT")) :=
  (process_commit_error_amended (newMultiCommand true) _ _ _ "EXECABORT" rfl rfl
    (fun hc => List.noConfusion hc) (by rfl)).1

/-- Claim C1 (code bug evaluation): a transactional batch whose
commit-step reply is a scalar with no error and no nested replies --
neither an error reply nor a sequence. The source's
"unknown transaction error" branch is unreachable (it is guarded by
`execReply.Error != nil` inside the else of `execReply.Error == nil`),
so `process` silently returns a reply with no error and an empty element
sequence instead of the synthetic error. -/
theorem process_malformed_commit_eval :
    ((newMultiCommand true).process
        (fun _ => Reply.mk .multi none
          [Reply.mk .scalar none [], Reply.mk .scalar none [],
            Reply.mk .scalar none []])
        [{ name := "SET", args := ["k", "v"] }]).fst =
      some (Reply.mk .multi none []) ∧
    (Reply.mk .multi none []).Error ≠ newError "unknown transaction error" := by
  exact ⟨rfl, fun hc => Option.noConfusion hc⟩

/-- Claim C3 (counterexample): after a `process` call the batch's queue
is not empty -- `process` sends `mc.cmds` directly and never clears it
(only `Flush` assigns `mc.cmds = nil`). -/
theorem process_leaves_queue_cex :
    (((newMultiCommand false).process (fun _ => Reply.mk .scalar none [])
        [{ name := "PING", args := [] }]).snd).cmds ≠ [] := by
  have h : (((newMultiCommand false).process (fun _ => Reply.mk .scalar none [])
      [{ name := "PING", args := [] }]).snd).cmds
      = [{ name := "PING", args := [] }] := rfl
  rw [h]
  exact fun hc => List.noConfusion hc

/-- Claim C3 (amended): a direct `Flush` call empties the queue, but a
`process` call leaves the queued command sequence in place: after a
non-transactional `process` the queue holds the prior commands followed by
the user commands, and after a transactional `process` it additionally
holds the begin/commit markers. -/
theorem flush_clears_process_keeps :
    (∀ (mc : MultiCommand) (server : List redis.command → Reply),
      ((mc.Flush server).snd).cmds = []) ∧
    (∀ (mc : MultiCommand) (server : List redis.command → Reply)
        (user : List redis.command), mc.transaction = false →
      ((mc.process server user).snd).cmds = mc.cmds ++ user) ∧
    (∀ (mc : MultiCommand) (server : List redis.command → Reply)
        (user : List redis.command), mc.transaction = true →
      ((mc.process server user).snd).cmds =
        mc.cmds ++ [multiCmd] ++ user ++ [execCmd]) := by
  refine ⟨fun mc server => rfl, ?_, ?_⟩
  · intro mc server user ht
    rw [MultiCommand.process_nontx_eq mc server user ht]
    exact MultiCommand.queueAll_cmds mc user
  · intro mc server user ht
    rw [MultiCommand.process_tx_eq mc server user ht]
    exact MultiCommand.tx_cmds mc user

/-- Witness for the amended C3: a concrete non-transactional `process`
leaves its one user command queued. -/
theorem flush_clears_process_keeps_witness :
    (((newMultiCommand false).process (fun _ => Reply.mk .scalar none [])
        [{ name := "PING", args := [] }]).snd).cmds =
      [] ++ [{ name := "PING", args := [] }] :=
  flush_clears_process_keeps.2.1 (newMultiCommand false)
    (fun _ => Reply.mk .scalar none []) [{ name := "PING", args := [] }] rfl

/-- Claim C9: the transactional branch of `process` reads the commit-step
reply at index (length of the aggregate's element sequence) - 1; this
access is out of range -- the run faults -- exactly when the aggregate
reply the flush produced has an empty element sequence (the index is then
-1). -/
theorem process_commit_access_iff (mc : MultiCommand)
    (server : List redis.command → Reply) (user : List redis.command)
    (ht : mc.transaction = true) :
    (mc.process server user).fst = none ↔
      (server (mc.cmds ++ [multiCmd] ++ user ++ [execCmd])).elems = [] := by
  rw [MultiCommand.process_tx_eq mc server user ht]
  constructor
  · intro h
    by_contra hne
    exact txExecResult_ne_none _ hne h
  · intro h
    exact txExecResult_empty _ h

/-- Witness for C9: a server that answers with an element-less aggregate
reply (e.g. a transport failure before any reply was decoded) makes the
transactional `process` fault. -/
theorem process_commit_access_iff_witness :
    ((newMultiCommand true).process (fun _ => Reply.mk .multi none []) []).fst
      = none :=
  (process_commit_access_iff (newMultiCommand true)
    (fun _ => Reply.mk .multi none []) [] rfl).mpr rfl

end redis

namespace radix

theorem connWrap.Encode_none_eq (cw : connWrap) (fe : Option GoError) :
    cw.Encode none fe =
      match streamOutcome cw fe with
      | some e => (some e, if e.isNet then cw.Close else cw)
      | none => (none, cw) := rfl

theorem connWrap.Decode_eq (cw : connWrap) (ue : Option GoError) :
    cw.Decode ue =
      match streamOutcome cw ue with
      | some e => (some e, if e.isNet then cw.Close else cw)
      | none => (none, cw) := rfl

/-- Claim C8: `Do(action)` delegates directly to `action.Run` on this
connection -- the returned error and the resulting connection state are
exactly those of `run cw`, with no additional logic. -/
theorem Do_delegates (cw : connWrap)
    (run : connWrap → Option GoError × connWrap) :
    cw.Do run = run cw := rfl

/-- Claim C5 (counterexample): an `Encode` that hits a transport error
does close the connection, but a subsequent `Do` whose action never
touches the connection returns no error: `Do` performs no
closed-connection check, so not every subsequent `Do` call fails. -/
theorem transport_close_do_cex :
    ((((NewConn (NetStream.raw 0)).Encode none
        (some (GoError.net "connection reset"))).snd).closed = true) ∧
    (((((NewConn (NetStream.raw 0)).Encode none
        (some (GoError.net "connection reset"))).snd).Do
          (fun s => (none, s))).fst = none) :=
  ⟨rfl, rfl⟩

/-- Claim C5 (amended): if an `Encode` or `Decode` call returns a
transport-level (`net.Error`) error -- whether it arose in the marshal,
flush, or unmarshal step -- the connection is closed before the call
returns, and every subsequent `Encode` or `Decode` call on that
connection fails; a subsequent `Do` adds no check of its own and fails
exactly when its action's `Run` does. -/
theorem transport_error_closes (cw : connWrap) :
    (∀ (me fe : Option GoError) (e : GoError),
      (cw.Encode me fe).fst = some e → e.isNet = true →
        ((cw.Encode me fe).snd).closed = true) ∧
    (∀ (ue : Option GoError) (e : GoError),
      (cw.Decode ue).fst = some e → e.isNet = true →
        ((cw.Decode ue).snd).closed = true) ∧
    (cw.closed = true →
      (∀ me fe, (cw.Encode me fe).fst ≠ none) ∧
      (∀ ue, (cw.Decode ue).fst ≠ none)) ∧
    (∀ run, (cw.Do run).fst = (run cw).fst) := by
  refine ⟨?_, ?_, ?_, fun run => rfl⟩
  · intro me fe e hfst hnet
    cases me with
    | some e0 =>
      have he : e0 = e := Option.some.inj hfst
      show (if e0.isNet = true then cw.Close else cw).closed = true
      rw [he, hnet, if_pos rfl]
      rfl
    | none =>
      rw [connWrap.Encode_none_eq] at hfst ⊢
      cases hso : streamOutcome cw fe with
      | none =>
        rw [hso] at hfst
        exact Option.noConfusion hfst
      | some e1 =>
        rw [hso] at hfst
        have he : e1 = e := Option.some.inj hfst
        show (if e1.isNet = true then cw.Close else cw).closed = true
        rw [he, hnet, if_pos rfl]
        rfl
  · intro ue e hfst hnet
    rw [connWrap.Decode_eq] at hfst ⊢
    cases hso : streamOutcome cw ue with
    | none =>
      rw [hso] at hfst
      exact Option.noConfusion hfst
    | some e1 =>
      rw [hso] at hfst
      have he : e1 = e := Option.some.inj hfst
      show (if e1.isNet = true then cw.Close else cw).closed = true
      rw [he, hnet, if_pos rfl]
      rfl
  · intro hcl
    constructor
    · intro me fe hnone
      cases me with
      | some e0 => exact Option.noConfusion hnone
      | none =>
        rw [connWrap.Encode_none_eq, streamOutcome, if_pos hcl] at hnone
        exact Option.noConfusion hnone
    · intro ue hnone
      rw [connWrap.Decode_eq, streamOutcome, if_pos hcl] at hnone
      exact Option.noConfusion hnone

/-- Witness for the amended C5: a flush-step transport error closes the
connection. -/
theorem transport_error_closes_witness :
    (((NewConn (NetStream.raw 1)).Encode none
        (some (GoError.net "broken pipe"))).snd).closed = true :=
  (transport_error_closes (NewConn (NetStream.raw 1))).1 none
    (some (GoError.net "broken pipe")) (GoError.net "broken pipe") rfl rfl

/-- Claim C6: an `Encode` or `Decode` call that returns a non-nil error
which is not a transport-level error leaves the connection unclosed
(state unchanged) and returns the error unchanged, whether the error came
from the marshal step, the flush step, or the unmarshal step. -/
theorem nonnet_error_no_close (cw : connWrap) (e : GoError)
    (hopen : cw.closed = false) (hnn : e.isNet = false) :
    (∀ flushErr, cw.Encode (some e) flushErr = (some e, cw)) ∧
    cw.Encode none (some e) = (some e, cw) ∧
    cw.Decode (some e) = (some e, cw) := by
  refine ⟨fun flushErr => ?_, ?_, ?_⟩
  · show (some e, if e.isNet = true then cw.Close else cw) = (some e, cw)
    rw [hnn, if_neg Bool.false_ne_true]
  · rw [connWrap.Encode_none_eq, streamOutcome, if_neg (by rw [hopen]; exact Bool.false_ne_true)]
    show (some e, if e.isNet = true then cw.Close else cw) = (some e, cw)
    rw [hnn, if_neg Bool.false_ne_true]
  · rw [connWrap.Decode_eq, streamOutcome, if_neg (by rw [hopen]; exact Bool.false_ne_true)]
    show (some e, if e.isNet = true then cw.Close else cw) = (some e, cw)
    rw [hnn, if_neg Bool.false_ne_true]

/-- Witness for C6: a malformed-value error is returned unchanged from
`Decode` and the connection stays open. -/
theorem nonnet_error_no_close_witness :
    (NewConn (NetStream.raw 0)).Decode (some (GoError.other "malformed value"))
      = (some (GoError.other "malformed value"), NewConn (NetStream.raw 0)) :=
  (nonnet_error_no_close (NewConn (NetStream.raw 0))
    (GoError.other "malformed value") rfl rfl).2.2

/-- Claim C7: every `Read` and every `Write` on a `timeoutConn` sets an
absolute deadline of now + timeout on the underlying stream when the
configured timeout is strictly positive, and sets no deadline at all
(the stream state is untouched) when the timeout is zero or negative. -/
theorem timeoutConn_deadline (tc : timeoutConn) (now : Int) :
    (tc.timeout > 0 →
      (tc.Read now).deadline = some (now + tc.timeout) ∧
      (tc.Write now).deadline = some (now + tc.timeout)) ∧
    (tc.timeout ≤ 0 →
      tc.Read now = tc ∧ tc.Write now = tc) := by
  constructor
  · intro h
    constructor <;>
      simp [timeoutConn.Read, timeoutConn.Write, timeoutConn.setDeadline, h]
  · intro h
    have h2 : ¬ tc.timeout > 0 := by omega
    constructor <;>
      simp [timeoutConn.Read, timeoutConn.Write, timeoutConn.setDeadline, h2]

/-- Witness for C7: with timeout 5 a read arms the deadline now + 5; with
timeout 0 a write leaves the stream untouched. -/
theorem timeoutConn_deadline_witness :
    (({ timeout := 5, deadline := none } : timeoutConn).Read 100).deadline
      = some (100 + 5) ∧
    ({ timeout := 0, deadline := none } : timeoutConn).Write 100
      = { timeout := 0, deadline := none } :=
  ⟨((timeoutConn_deadline { timeout := 5, deadline := none } 100).1
      (by norm_num)).1,
   ((timeoutConn_deadline { timeout := 0, deadline := none } 100).2
      (by norm_num)).2⟩

/-- Claim C10: `NetConn` applied to `NewConn c` returns exactly `c`; for
a connection built by `DialTimeout`, `NetConn` therefore returns the
deadline-enforcing `timeoutConn` wrapper, which is never the underlying
socket it wraps. -/
theorem NetConn_roundtrip :
    (∀ c : NetStream, (NewConn c).NetConn = c) ∧
    (∀ (c : NetStream) (t : Int),
      (DialTimeout c t).NetConn = NetStream.timeoutWrap c t ∧
      (DialTimeout c t).NetConn ≠ c) := by
  refine ⟨fun c => rfl, fun c t => ⟨rfl, ?_⟩⟩
  show NetStream.timeoutWrap c t ≠ c
  intro h
  have hd := congrArg NetStream.depth h
  simp [NetStream.depth] at hd

/-- Witness for C10 at concrete streams. -/
theorem NetConn_roundtrip_witness :
    (NewConn (NetStream.raw 0)).NetConn = NetStream.raw 0 ∧
    (DialTimeout (NetStream.raw 7) 5).NetConn
      = NetStream.timeoutWrap (NetStream.raw 7) 5 :=
  ⟨NetConn_roundtrip.1 (NetStream.raw 0),
   (NetConn_roundtrip.2 (NetStream.raw 7) 5).1⟩

end radix
